import Mathlib

/-!
Verification of the go-dcp DCP client core against its specification.

Shallow embedding of the repository's source:
* `utils.go` — `ChunkSlice` (vBucket partitioning) and `GetCheckpointId`
  (checkpoint key derivation).
* `couchbase/client.go` — `OpenStream` / `openStreamWithRollback`,
  `tlsRootCaProvider` / `getSecurityConfig`, `DeleteDocument`.
* `stream/checkpoint.go` — `checkpoint.Save` and `checkpoint.Load`.

Go machine integers are modelled as `Nat`/`Int`; Go's truncating integer
division is `Int.tdiv`; Go slices are `List`; fallible operations return
`Option`/`Except`; the external cluster SDK and metadata backend are
modelled as explicit oracle arguments so that the control flow of the
embedded functions can be stated and proved.
-/

/-! ### ChunkSlice (src/utils.go)

```go
func ChunkSlice(slice []uint16, chunks int) [][]uint16 {
    maxChunkSize := ((len(slice) - 1) / chunks) + 1
    numFullChunks := chunks - (maxChunkSize*chunks - len(slice))
    result := make([][]uint16, chunks)
    startIndex := 0
    for i := 0; i < chunks; i++ {
        endIndex := startIndex + maxChunkSize
        if i >= numFullChunks {
            endIndex--
        }
        result[i] = slice[startIndex:endIndex]
        startIndex = endIndex
    }
    return result
}
```

Go `int` arithmetic is modelled on `Int` with `Int.tdiv` (Go `/` truncates
toward zero).  The slicing expression `slice[a:b]` panics when the bounds
are out of range; this is modelled by `goSlice` returning `none`. -/

/-- Go's `slice[a:b]`: `none` models the out-of-range panic. -/
def goSlice {α : Type} (l : List α) (a b : Int) : Option (List α) :=
  if 0 ≤ a ∧ a ≤ b ∧ b ≤ (l.length : Int) then
    some ((l.drop a.toNat).take (b - a).toNat)
  else none

/-- The `endIndex` computed by one iteration of the `ChunkSlice` loop:
`endIndex := startIndex + maxChunkSize; if i >= numFullChunks { endIndex-- }`. -/
def chunkEnd (maxChunkSize numFullChunks : Int) (i : Nat) (startIndex : Int) : Int :=
  if numFullChunks ≤ (i : Int) then startIndex + maxChunkSize - 1
  else startIndex + maxChunkSize

/-- The `for i := 0; i < chunks; i++` loop of `ChunkSlice`, with the number of
remaining iterations as the recursion fuel. -/
def chunkLoop {α : Type} (slice : List α) (maxChunkSize numFullChunks : Int) :
    Nat → Nat → Int → Option (List (List α))
  | 0, _, _ => some []
  | fuel + 1, i, startIndex =>
    match goSlice slice startIndex (chunkEnd maxChunkSize numFullChunks i startIndex) with
    | none => none
    | some c =>
      match chunkLoop slice maxChunkSize numFullChunks fuel (i + 1)
          (chunkEnd maxChunkSize numFullChunks i startIndex) with
      | none => none
      | some rest => some (c :: rest)

/-- `maxChunkSize := ((len(slice) - 1) / chunks) + 1` (Go truncating division). -/
def maxChunkSize (len chunks : Nat) : Int :=
  Int.tdiv ((len : Int) - 1) (chunks : Int) + 1

/-- `numFullChunks := chunks - (maxChunkSize*chunks - len(slice))`. -/
def numFullChunks (len chunks : Nat) : Int :=
  (chunks : Int) - (maxChunkSize len chunks * (chunks : Int) - (len : Int))

/-- `ChunkSlice` from `src/utils.go`.  Returns `none` iff some slicing
expression would panic. -/
def ChunkSlice {α : Type} (slice : List α) (chunks : Nat) : Option (List (List α)) :=
  chunkLoop slice (maxChunkSize slice.length chunks) (numFullChunks slice.length chunks)
    chunks 0 0

/-- The start index of chunk `i` (the value of `startIndex` at iteration `i`). -/
def chunkPos (mc nf : Int) (i : Nat) : Int :=
  (i : Int) * mc - max 0 ((i : Int) - nf)

/-- The size of chunk `i`: `maxChunkSize` for full chunks, one less afterwards. -/
def chunkSizeI (mc nf : Int) (i : Nat) : Int :=
  if (i : Int) < nf then mc else mc - 1

/-! Claim-side formulas for the chunk sizes, written in natural-number
arithmetic exactly as the specification states them:
`maxChunkSize = ((totalVBuckets - 1) / totalMembers) + 1` and
`numFullChunks = totalMembers - (maxChunkSize*totalMembers - totalVBuckets)`. -/

/-- The spec's `maxChunkSize` formula (valid Nat form for `N ≥ 1`). -/
def maxChunkSizeSpec (N M : Nat) : Nat := (N - 1) / M + 1

/-- The spec's `numFullChunks` formula (valid Nat form for `1 ≤ M ≤ N`). -/
def numFullChunksSpec (N M : Nat) : Nat := M - (maxChunkSizeSpec N M * M - N)

/-! ### GetCheckpointId (src/utils.go)

```go
func GetCheckpointId(vbId uint16, groupName string) string {
    key := Prefix + groupName + ":checkpoint:" + strconv.Itoa(int(vbId))
    crc := crc32.Checksum([]byte(fmt.Sprintf("%x", vbId)), crc32.IEEETable)
    return fmt.Sprintf("%v#%08x", key, crc)
}
```

The package-level constant `Prefix` comes from configuration and is taken
as a parameter.  `strconv.Itoa` on a non-negative value is decimal
formatting; `fmt` `%x` is minimal lowercase hexadecimal; `%08x` is the same
zero-padded to width 8; `%v` of a string is the string itself.  The external
`hash/crc32` library's `Checksum(data, IEEETable)` is modelled by the
standard reflected bitwise form of CRC-32/IEEE (polynomial `0xEDB88320`,
initial value and final xor `0xFFFFFFFF`); the model reproduces the
published check values, e.g. `crc32("123456789") = 0xCBF43926`. -/

/-- Digit character: `0-9` then lowercase `a-f`, as Go's `fmt` uses. -/
def digitChar (n : Nat) : Char :=
  if n < 10 then Char.ofNat (48 + n) else Char.ofNat (87 + n)

/-- Digit-list worker, structurally recursive on a fuel bound so that it
reduces inside the kernel; `fuel ≥ n + 1` always suffices. -/
def digitsAux (base : Nat) : Nat → Nat → List Char
  | 0, _ => []
  | fuel + 1, n =>
    if n < base then [digitChar n]
    else digitsAux base fuel (n / base) ++ [digitChar (n % base)]

/-- Minimal base-16 digit list of `n`, most significant first (`%x`). -/
def hexDigits (n : Nat) : List Char := digitsAux 16 (n + 1) n

/-- Minimal base-10 digit list of `n`, most significant first
(`strconv.Itoa` for non-negative values). -/
def decDigits (n : Nat) : List Char := digitsAux 10 (n + 1) n

/-- Go `fmt.Sprintf("%x", n)` for an unsigned integer. -/
def natToHex (n : Nat) : String := String.mk (hexDigits n)

/-- Go `strconv.Itoa(n)` for a non-negative `n`. -/
def natToDec (n : Nat) : String := String.mk (decDigits n)

/-- Zero padding to width `w`, as the `08` flag of `%08x`. -/
def leftPadZero (w : Nat) (s : List Char) : List Char :=
  List.replicate (w - s.length) '0' ++ s

/-- The CRC-32/IEEE generator polynomial in reflected form. -/
def crc32Poly : Nat := 0xEDB88320

/-- One bit step of reflected CRC-32. -/
def crc32BitStep (crc : Nat) : Nat :=
  if crc % 2 = 1 then (crc / 2) ^^^ crc32Poly else crc / 2

/-- One byte step: xor the byte into the register, then eight bit steps. -/
def crc32ByteStep (crc b : Nat) : Nat := Nat.iterate crc32BitStep 8 (crc ^^^ b)

/-- `crc32.Checksum(data, crc32.IEEETable)` of the external `hash/crc32`
library (modelled bitwise; table-driven and bitwise forms coincide). -/
def crc32IEEE (data : List Nat) : Nat :=
  (data.foldl crc32ByteStep 0xFFFFFFFF) ^^^ 0xFFFFFFFF

/-- `[]byte(s)` for an ASCII string (UTF-8 bytes = character codes). -/
def strBytes (s : String) : List Nat := s.data.map Char.toNat

/-- `GetCheckpointId` from `src/utils.go` (the configured `Prefix` is a
parameter). -/
def GetCheckpointId ( Prefix : String) (vbId : Nat) (groupName : String) : String :=
  let key := Prefix ++ groupName ++ ":checkpoint:" ++ natToDec vbId
  let crc := crc32IEEE (strBytes (natToHex vbId))
  key ++ "#" ++ String.mk (leftPadZero 8 (hexDigits crc))

/-- The key format as the specification words it:
`"{prefix}{group}:checkpoint:{vbID}#{crc32(hex(vbID)):08x}"`. -/
def specCheckpointKey ( Prefix group : String) (vbId : Nat) : String :=
  Prefix ++ group ++ ":checkpoint:" ++ natToDec vbId ++ "#" ++
    String.mk (leftPadZero 8 (hexDigits (crc32IEEE (strBytes (natToHex vbId)))))

/-! ### Data model (models/offset.go, models/checkpoint.go)

The offset and checkpoint-document records, with the fields the embedded
functions use.  `gocbcore.VbUUID`/`SeqNo` are unsigned 64-bit values,
modelled as `Nat`. -/

structure SnapshotMarker where
  startSeqNo : Nat
  endSeqNo : Nat
deriving DecidableEq

structure Offset where
  snapshotMarker : SnapshotMarker
  vbUUID : Nat
  seqNo : Nat
deriving DecidableEq

structure CheckpointDocumentSnapshot where
  startSeqNo : Nat
  endSeqNo : Nat
deriving DecidableEq

structure CheckpointDocumentCheckpoint where
  vbUUID : Nat
  seqNo : Nat
  snapshot : CheckpointDocumentSnapshot
deriving DecidableEq

structure CheckpointDocument where
  checkpoint : CheckpointDocumentCheckpoint
  bucketUUID : String
deriving DecidableEq

/-- Modelled from the spec: the checkpoint document the metadata backend
reports for a vBucket with no persisted state — §4.2 "missing vBuckets map
to a zero-value document" (`models.NewEmptyCheckpointDocument` is outside
`src/`). -/
def emptyCheckpointDocument (bucketUUID : String) : CheckpointDocument :=
  { checkpoint := { vbUUID := 0, seqNo := 0, snapshot := { startSeqNo := 0, endSeqNo := 0 } }
    bucketUUID := bucketUUID }

/-! ### checkpoint.Save (src/unnamed/part_002, lines 44-81)

```go
func (s *checkpoint) Save() {
    s.stream.LockOffsets()
    defer s.stream.UnlockOffsets()
    offsets, dirtyOffsets, anyDirtyOffset := s.stream.GetOffsets()
    if !anyDirtyOffset { ...; return }
    s.saveLock.Lock(); defer s.saveLock.Unlock()
    dump := map[uint16]*models.CheckpointDocument{}
    for vbID, offset := range offsets { dump[vbID] = ... }
    err := s.metadata.Save(dump, dirtyOffsets, s.bucketUUID)
    if err == nil { ...; s.stream.UnmarkDirtyOffsets() } else { log }
}
```

The stream ledger (`GetOffsets`, `UnmarkDirtyOffsets`) lives outside `src/`
and is modelled from the spec §4.3; the metadata backend is an oracle.
`checkpointSave` returns the updated ledger together with the list of
backend write calls performed (one entry per `metadata.Save` invocation). -/

/-- The stream's offset ledger as `checkpoint.Save` observes it.  Modelled
from the spec §4.3: per-vBucket offsets, per-vBucket dirty flags, and the
global any-dirty bit returned by `GetOffsets`. -/
structure LedgerState where
  offsets : List (Nat × Offset)
  dirtyOffsets : Nat → Bool
  anyDirtyOffset : Bool

/-- Modelled from the spec: `stream.UnmarkDirtyOffsets` clears every dirty
flag (§4.3 "unmarkDirty() (after successful save)"). -/
def UnmarkDirtyOffsets (st : LedgerState) : LedgerState :=
  { st with dirtyOffsets := fun _ => false, anyDirtyOffset := false }

/-- The `dump` of checkpoint documents `Save` builds from the offsets. -/
def buildDump (offsets : List (Nat × Offset)) (bucketUUID : String) :
    List (Nat × CheckpointDocument) :=
  offsets.map fun p =>
    (p.1,
      { checkpoint :=
          { vbUUID := p.2.vbUUID
            seqNo := p.2.seqNo
            snapshot :=
              { startSeqNo := p.2.snapshotMarker.startSeqNo
                endSeqNo := p.2.snapshotMarker.endSeqNo } }
        bucketUUID := bucketUUID })

/-- `checkpoint.Save`.  `metadataSave` is the metadata backend's `Save`
(`none` = success, `some e` = error).  Result: the ledger after the call and
the backend write calls performed. -/
def checkpointSave (st : LedgerState) (bucketUUID : String)
    (metadataSave : List (Nat × CheckpointDocument) → (Nat → Bool) → String → Option String) :
    LedgerState × List (List (Nat × CheckpointDocument)) :=
  if !st.anyDirtyOffset then (st, [])
  else
    let dump := buildDump st.offsets bucketUUID
    match metadataSave dump st.dirtyOffsets bucketUUID with
    | none => (UnmarkDirtyOffsets st, [dump])
    | some _ => (st, [dump])

/-! ### checkpoint.Load (src/unnamed/part_002, lines 83-141)

The metadata backend's `Load` and the client's `GetVBucketSeqNos` are
oracles passed as arguments (`Except`: the source panics on their errors).
The result maps are functions built by keyed insertion, as Go map writes. -/

/-- Insert into a Go map modelled as a function. -/
def mapUpdate {β : Type} (m : Nat → Option β) (k : Nat) (v : β) : Nat → Option β :=
  fun x => if x = k then some v else m x

/-- Insert into a Go `map[uint16]bool` modelled as a function. -/
def boolMapUpdate (m : Nat → Bool) (k : Nat) (v : Bool) : Nat → Bool :=
  fun x => if x = k then v else m x

/-- The `auto reset to latest` loop of `Load`: for each dump entry, mark
dirty iff the server's current seqNo is non-zero and store an offset at the
current seqNo (snapshot `start = end = currentSeqNo`, vbUUID from the dump
document). -/
def loadLatestLoop (seqNoMap : Nat → Nat) :
    List (Nat × CheckpointDocument) →
    (Nat → Option Offset) → (Nat → Bool) → Bool →
    (Nat → Option Offset) × (Nat → Bool) × Bool
  | [], offsets, dirtyOffsets, anyDirtyOffset => (offsets, dirtyOffsets, anyDirtyOffset)
  | (vbID, doc) :: rest, offsets, dirtyOffsets, anyDirtyOffset =>
    let currentSeqNo := seqNoMap vbID
    let dirtyOffsets' :=
      if currentSeqNo ≠ 0 then boolMapUpdate dirtyOffsets vbID true else dirtyOffsets
    let anyDirtyOffset' := if currentSeqNo ≠ 0 then true else anyDirtyOffset
    let offsets' := mapUpdate offsets vbID
      { snapshotMarker := { startSeqNo := currentSeqNo, endSeqNo := currentSeqNo }
        vbUUID := doc.checkpoint.vbUUID
        seqNo := currentSeqNo }
    loadLatestLoop seqNoMap rest offsets' dirtyOffsets' anyDirtyOffset'

/-- The ordinary reconstruction loop of `Load`: offsets verbatim from the
persisted documents. -/
def loadDocsLoop :
    List (Nat × CheckpointDocument) → (Nat → Option Offset) → (Nat → Option Offset)
  | [], offsets => offsets
  | (vbID, doc) :: rest, offsets =>
    loadDocsLoop rest (mapUpdate offsets vbID
      { snapshotMarker := { startSeqNo := doc.checkpoint.snapshot.startSeqNo
                            endSeqNo := doc.checkpoint.snapshot.endSeqNo }
        vbUUID := doc.checkpoint.vbUUID
        seqNo := doc.checkpoint.seqNo })

/-- `CheckpointAutoResetTypeLatest = "latest"`. -/
def CheckpointAutoResetTypeLatest : String := "latest"

/-- `checkpoint.Load`.  Returns `(offsets, dirtyOffsets, anyDirtyOffset)`,
or the error on which the source panics. -/
def checkpointLoad
    (metadataLoad : Except String (List (Nat × CheckpointDocument) × Bool))
    (autoReset : String)
    (getVBucketSeqNos : Except String (Nat → Nat)) :
    Except String ((Nat → Option Offset) × (Nat → Bool) × Bool) :=
  match metadataLoad with
  | .error e => .error e
  | .ok (dump, exist) =>
    if exist = false ∧ autoReset = CheckpointAutoResetTypeLatest then
      match getVBucketSeqNos with
      | .error e => .error e
      | .ok seqNoMap =>
        .ok (loadLatestLoop seqNoMap dump (fun _ => none) (fun _ => false) false)
    else
      (.ok (loadDocsLoop dump (fun _ => none), fun _ => false, false))

/-- A concrete ledger with one dirty offset, for checkpoint examples. -/
def saveSt0 : LedgerState :=
  { offsets := [(0, { snapshotMarker := { startSeqNo := 1, endSeqNo := 2 }
                      vbUUID := 7, seqNo := 2 })]
    dirtyOffsets := fun v => v == 0
    anyDirtyOffset := true }

/-- A metadata backend whose `Save` always fails. -/
def failSave : List (Nat × CheckpointDocument) → (Nat → Bool) → String → Option String :=
  fun _ _ _ => some "metadata io error"

/-- A metadata backend whose `Save` always succeeds. -/
def okSave : List (Nat × CheckpointDocument) → (Nat → Bool) → String → Option String :=
  fun _ _ _ => none

/-! ### client.OpenStream / openStreamWithRollback (src/unnamed/part_001)

`gocbcore.DCPAgent.OpenStream(vbID, flags, vbUUID, startSeqNo, endSeqNo,
snapStartSeqNo, snapEndSeqNo, observer, opts, cb)` is external; it is
modelled as an oracle from the request parameters to either a dispatch
error (in which case `opm.Wait` fails and the completion callback never
runs) or a completed callback carrying the failover logs and an optional
stream error.  The observer's failover-log cache is the piece of observer
state these functions touch. -/

structure FailoverEntry where
  vbUUID : Nat
  seqNo : Nat
deriving DecidableEq

inductive StreamError where
  | rollback (seqNo : Nat)
  | other (msg : String)
deriving DecidableEq

/-- Outcome of dispatching one `OpenStream` call to the DCP agent. -/
inductive DcpResponse where
  | dispatchError (msg : String)
  | completed (failoverLogs : List FailoverEntry) (err : Option StreamError)
deriving DecidableEq

/-- The parameters of a `gocbcore.DCPAgent.OpenStream` call (the `flags`
argument is always `0` in the source and omitted). -/
structure StreamRequest where
  vbID : Nat
  vbUUID : Nat
  startSeqNo : Nat
  endSeqNo : Nat
  snapStartSeqNo : Nat
  snapEndSeqNo : Nat
  filter : Option (List Nat)
deriving DecidableEq

/-- Observer state: the failover-log cache (`SetFailoverLogs`). -/
structure ObserverState where
  failoverLogs : Nat → Option (List FailoverEntry)

/-- `observer.SetFailoverLogs(vbID, failoverLogs)`. -/
def SetFailoverLogs (obs : ObserverState) (vbID : Nat)
    (entries : List FailoverEntry) : ObserverState :=
  ⟨fun v => if v = vbID then some entries else obs.failoverLogs v⟩

/-- What `client.OpenStream` returns to its caller. -/
inductive OpenResult where
  | ok
  | dispatchErr (msg : String)
  | streamErr (e : StreamError)
deriving DecidableEq

/-- The `0xffffffffffffffff` end-seqNo bound both open calls pass. -/
def endSeqNoMax : Nat := 0xffffffffffffffff

/-- The collection filter: `FilterOptions` carry the collection IDs iff a
collection-ID set was resolved and the agent has collections support. -/
def openStreamOptions (collectionIDs : Option (List Nat))
    (hasCollectionsSupport : Bool) : Option (List Nat) :=
  match collectionIDs, hasCollectionsSupport with
  | some ids, true => some ids
  | _, _ => none

/-- The re-open request issued by `openStreamWithRollback`:
`vbUUID = 0`, stream start `rollbackSeqNo`, end `0xffffffffffffffff`,
snapshot `rollbackSeqNo..rollbackSeqNo`. -/
def rollbackRequest (vbID rollbackSeqNo : Nat) (filter : Option (List Nat)) :
    StreamRequest :=
  { vbID := vbID
    vbUUID := 0
    startSeqNo := rollbackSeqNo
    endSeqNo := endSeqNoMax
    snapStartSeqNo := rollbackSeqNo
    snapEndSeqNo := rollbackSeqNo
    filter := filter }

/-- `client.openStreamWithRollback` (src/unnamed/part_001, lines 403-443).
`failedSeqNo` is logged but unused in the re-open call, as in the source.
The completion callback stores the failover logs in the observer before the
error is surfaced. -/
def openStreamWithRollback (agent : StreamRequest → DcpResponse) (vbID : Nat)
    (failedSeqNo rollbackSeqNo : Nat) (observer : ObserverState)
    (filter : Option (List Nat)) : ObserverState × OpenResult :=
  match agent (rollbackRequest vbID rollbackSeqNo filter) with
  | .dispatchError msg => (observer, .dispatchErr msg)
  | .completed failoverLogs err =>
    (SetFailoverLogs observer vbID failoverLogs,
      match err with
      | none => .ok
      | some e => .streamErr e)

/-- The initial request of `client.OpenStream`: the stored offset's values
with the `0xffffffffffffffff` end bound. -/
def initialStreamRequest (vbID : Nat) (offset : Offset)
    (filter : Option (List Nat)) : StreamRequest :=
  { vbID := vbID
    vbUUID := offset.vbUUID
    startSeqNo := offset.seqNo
    endSeqNo := endSeqNoMax
    snapStartSeqNo := offset.snapshotMarker.startSeqNo
    snapEndSeqNo := offset.snapshotMarker.endSeqNo
    filter := filter }

/-- `client.OpenStream` (src/unnamed/part_001, lines 445-503): open at the
stored offset; the completion callback records the failover logs; on a DCP
rollback error re-open through `openStreamWithRollback` and return its
result. -/
def OpenStream (agent : StreamRequest → DcpResponse) (vbID : Nat)
    (collectionIDs : Option (List Nat)) (hasCollectionsSupport : Bool)
    (offset : Offset) (observer : ObserverState) : ObserverState × OpenResult :=
  let filter := openStreamOptions collectionIDs hasCollectionsSupport
  match agent (initialStreamRequest vbID offset filter) with
  | .dispatchError msg => (observer, .dispatchErr msg)
  | .completed failoverLogs err =>
    let observer1 := SetFailoverLogs observer vbID failoverLogs
    match err with
    | some (.rollback rollbackSeqNo) =>
      openStreamWithRollback agent vbID offset.seqNo rollbackSeqNo observer1 filter
    | some e => (observer1, .streamErr e)
    | none => (observer1, .ok)

/-- A concrete DCP agent for the rollback scenario: the open at
`vbUUID = 0xAA` answers `Rollback(42)`; the re-open (`vbUUID = 0`)
succeeds. -/
def rollbackAgent : StreamRequest → DcpResponse := fun req =>
  if req.vbUUID == 0xAA then
    .completed [{ vbUUID := 0xAA, seqNo := 10 }] (some (.rollback 42))
  else .completed [{ vbUUID := 0, seqNo := 42 }] none

/-- An observer with an empty failover-log cache. -/
def obs0 : ObserverState := ⟨fun _ => none⟩

/-- The spec's rollback scenario offset for vBucket 7. -/
def offset7 : Offset :=
  { snapshotMarker := { startSeqNo := 100, endSeqNo := 200 }, vbUUID := 0xAA, seqNo := 150 }

/-- The spec's resume scenario: the checkpoint document saved for vB 0 with
`seqNo = 100, vbUUID = 0xAA, snapshot 100..200`. -/
def resumeDoc : CheckpointDocument :=
  { checkpoint := { vbUUID := 0xAA, seqNo := 100
                    snapshot := { startSeqNo := 100, endSeqNo := 200 } }
    bucketUUID := "bu" }

/-- The offset reconstructed from `resumeDoc`. -/
def resumeOffset : Offset :=
  { snapshotMarker := { startSeqNo := 100, endSeqNo := 200 }, vbUUID := 0xAA, seqNo := 100 }

/-- An agent that completes every open without error. -/
def resumeAgent : StreamRequest → DcpResponse :=
  fun _ => .completed [{ vbUUID := 0xAA, seqNo := 100 }] none

/-! ### client.tlsRootCaProvider / getSecurityConfig
(src/unnamed/part_001, lines 117-144)

```go
func (s *client) tlsRootCaProvider() *x509.CertPool {
    cert, err := os.ReadFile(os.ExpandEnv(s.config.RootCAPath))
    if err != nil { log; panic(err) }
    certPool := x509.NewCertPool()
    certPool.AppendCertsFromPEM(cert)
    return nil
}
```

The file read is an oracle (`Except`, the error branch panics); a `nil`
`*x509.CertPool` is `none`. -/

/-- `x509.CertPool`: the list of appended PEM blobs. -/
structure CertPool where
  certs : List (List Nat)
deriving DecidableEq

/-- `x509.NewCertPool()`. -/
def NewCertPool : CertPool := ⟨[]⟩

/-- `certPool.AppendCertsFromPEM(cert)`. -/
def AppendCertsFromPEM (pool : CertPool) (pem : List Nat) : CertPool :=
  ⟨pool.certs ++ [pem]⟩

/-- `client.tlsRootCaProvider`: on a successful read it builds a pool,
appends the PEM contents — and returns `nil` (`none`), exactly as the
source does. -/
def tlsRootCaProvider (readFileResult : Except String (List Nat)) :
    Except String (Option CertPool) :=
  match readFileResult with
  | .error e => .error e
  | .ok cert =>
    let certPool := NewCertPool
    let certPool := AppendCertsFromPEM certPool cert
    .ok none

/-- `gocbcore.SecurityConfig` as `getSecurityConfig` fills it. -/
structure SecurityConfig where
  username : String
  password : String
  useTLS : Bool
  tlsRootCAProvider :
    Option (Except String (List Nat) → Except String (Option CertPool))

/-- The client configuration fields `getSecurityConfig` reads. -/
structure ClientConfig where
  username : String
  password : String
  secureConnection : Bool
deriving DecidableEq

/-- `client.getSecurityConfig`. -/
def getSecurityConfig (cfg : ClientConfig) : SecurityConfig :=
  let config : SecurityConfig :=
    { username := cfg.username
      password := cfg.password
      useTLS := false
      tlsRootCAProvider := none }
  if cfg.secureConnection then
    { config with useTLS := true, tlsRootCAProvider := some tlsRootCaProvider }
  else config

/-! ### client.DeleteDocument (src/unnamed/part_001, lines 750-779)

The function's Go signature returns nothing; both its error paths
(`opm.Wait` failing at dispatch, and the completion callback's error) end
in a bare `return`.  The two oracle arguments are those two errors; the
result is the error value reported to the caller — by the signature,
always absent. -/

/-- `client.DeleteDocument`: the error reported to the caller given the
dispatch error (`opm.Wait`) and the completion-callback error of the
underlying `Delete`. -/
def DeleteDocument (waitErr callbackErr : Option String) : Option String :=
  match waitErr with
  | some _ => none
  | none =>
    match callbackErr with
    | some _ => none
    | none => none

/-- A concrete configuration with `secureConnection` enabled. -/
def secureCfg : ClientConfig :=
  { username := "u", password := "p", secureConnection := true }

theorem chunkPos_zero (mc nf : Int) (h1 : 0 ≤ nf) : chunkPos mc nf 0 = 0 := by
  simp only [chunkPos, Nat.cast_zero, zero_mul, zero_sub]
  omega

theorem chunkPos_succ (mc nf : Int) (i : Nat) :
    chunkPos mc nf (i + 1) = chunkPos mc nf i + chunkSizeI mc nf i := by
  unfold chunkPos chunkSizeI
  push_cast
  by_cases h : (i : Int) < nf
  · rw [if_pos h]
    have e1 : max 0 ((i : Int) + 1 - nf) = 0 := by omega
    have e2 : max 0 ((i : Int) - nf) = 0 := by omega
    rw [e1, e2]
    ring
  · rw [if_neg h]
    have e1 : max 0 ((i : Int) + 1 - nf) = (i : Int) + 1 - nf := by omega
    have e2 : max 0 ((i : Int) - nf) = (i : Int) - nf := by omega
    rw [e1, e2]
    ring

theorem chunkSizeI_nonneg (mc nf : Int) (chunks : Nat)
    (h4 : nf < (chunks : Int) → 1 ≤ mc) (h5 : 0 < nf → 0 ≤ mc)
    (i : Nat) (hi : i < chunks) : 0 ≤ chunkSizeI mc nf i := by
  unfold chunkSizeI
  by_cases h : (i : Int) < nf
  · rw [if_pos h]
    exact h5 (by omega)
  · rw [if_neg h]
    have : nf < (chunks : Int) := by
      have : (i : Int) < (chunks : Int) := by exact_mod_cast hi
      omega
    have := h4 this
    omega

theorem chunkPos_nonneg (mc nf : Int) (chunks : Nat)
    (h1 : 0 ≤ nf) (h4 : nf < (chunks : Int) → 1 ≤ mc) (h5 : 0 < nf → 0 ≤ mc) :
    ∀ i, i ≤ chunks → 0 ≤ chunkPos mc nf i := by
  intro i
  induction i with
  | zero => intro _; rw [chunkPos_zero mc nf h1]
  | succ n ih =>
    intro h
    rw [chunkPos_succ]
    have hn : 0 ≤ chunkPos mc nf n := ih (by omega)
    have hs : 0 ≤ chunkSizeI mc nf n := chunkSizeI_nonneg mc nf chunks h4 h5 n (by omega)
    omega

theorem chunkPos_add (mc nf : Int) (chunks : Nat)
    (h4 : nf < (chunks : Int) → 1 ≤ mc) (h5 : 0 < nf → 0 ≤ mc) :
    ∀ d i, i + d ≤ chunks → chunkPos mc nf i ≤ chunkPos mc nf (i + d) := by
  intro d
  induction d with
  | zero => intro i _; exact le_refl _
  | succ n ih =>
    intro i h
    have h1 : chunkPos mc nf (i + 1) ≤ chunkPos mc nf (i + 1 + n) := ih (i + 1) (by omega)
    have h2 : chunkPos mc nf i ≤ chunkPos mc nf (i + 1) := by
      rw [chunkPos_succ]
      have := chunkSizeI_nonneg mc nf chunks h4 h5 i (by omega)
      omega
    have h3 : i + 1 + n = i + (n + 1) := by omega
    rw [h3] at h1
    omega

theorem chunkPos_total (mc nf : Int) (chunks : Nat) (L : Int)
    (h2 : nf ≤ (chunks : Int))
    (h3 : (chunks : Int) * mc - ((chunks : Int) - nf) = L) :
    chunkPos mc nf chunks = L := by
  unfold chunkPos
  have e : max 0 ((chunks : Int) - nf) = (chunks : Int) - nf := by omega
  rw [e]
  exact h3

/-- Loop invariant for `chunkLoop`: starting iteration `i` at position
`chunkPos mc nf i` with `fuel = chunks - i` iterations left, the loop
succeeds and produces the chunks `i, i+1, …, chunks-1`, whose concatenation
is the remainder of the slice and whose sizes are given by `chunkSizeI`. -/
theorem chunkLoop_spec {α : Type} (slice : List α) (mc nf : Int) (chunks : Nat)
    (h1 : 0 ≤ nf) (h2 : nf ≤ (chunks : Int))
    (h3 : (chunks : Int) * mc - ((chunks : Int) - nf) = (slice.length : Int))
    (h4 : nf < (chunks : Int) → 1 ≤ mc) (h5 : 0 < nf → 0 ≤ mc) :
    ∀ fuel i, i + fuel = chunks →
      ∃ r, chunkLoop slice mc nf fuel i (chunkPos mc nf i) = some r ∧
        r.length = fuel ∧
        r.flatten = slice.drop (chunkPos mc nf i).toNat ∧
        ∀ k (hk : k < r.length),
          (r.get ⟨k, hk⟩).length = (chunkSizeI mc nf (i + k)).toNat := by
  intro fuel
  induction fuel with
  | zero =>
    intro i hi
    refine ⟨[], rfl, rfl, ?_, by intro k hk; exact absurd hk (by simp)⟩
    have hp : chunkPos mc nf i = (slice.length : Int) := by
      subst hi
      simpa using chunkPos_total mc nf i (slice.length : Int) h2 h3
    rw [hp]
    simp
  | succ n ih =>
    intro i hi
    have hic : i < chunks := by omega
    -- bounds for the slice expression
    have hs0 : 0 ≤ chunkPos mc nf i :=
      chunkPos_nonneg mc nf chunks h1 h4 h5 i (by omega)
    have hsucc : chunkPos mc nf (i + 1) = chunkPos mc nf i + chunkSizeI mc nf i :=
      chunkPos_succ mc nf i
    have hsz : 0 ≤ chunkSizeI mc nf i := chunkSizeI_nonneg mc nf chunks h4 h5 i hic
    have hse : chunkPos mc nf i ≤ chunkPos mc nf (i + 1) := by omega
    have heL : chunkPos mc nf (i + 1) ≤ (slice.length : Int) := by
      have h := chunkPos_add mc nf chunks h4 h5 (chunks - (i + 1)) (i + 1) (by omega)
      have he : i + 1 + (chunks - (i + 1)) = chunks := by omega
      rw [he] at h
      have := chunkPos_total mc nf chunks (slice.length : Int) h2 h3
      omega
    -- the endIndex of this iteration is the next start position
    have hend : chunkEnd mc nf i (chunkPos mc nf i) = chunkPos mc nf (i + 1) := by
      unfold chunkEnd
      rw [hsucc]
      unfold chunkSizeI
      by_cases h : nf ≤ (i : Int)
      · rw [if_pos h, if_neg (by omega)]
        ring
      · rw [if_neg h, if_pos (by omega)]
    -- the slice expression is in range
    have hslice : goSlice slice (chunkPos mc nf i) (chunkPos mc nf (i + 1)) =
        some ((slice.drop (chunkPos mc nf i).toNat).take
          (chunkPos mc nf (i + 1) - chunkPos mc nf i).toNat) := by
      unfold goSlice
      rw [if_pos ⟨hs0, hse, heL⟩]
    obtain ⟨rest, hrest, hlen, hflat, hsizes⟩ := ih (i + 1) (by omega)
    refine ⟨(slice.drop (chunkPos mc nf i).toNat).take
        (chunkPos mc nf (i + 1) - chunkPos mc nf i).toNat :: rest, ?_, ?_, ?_, ?_⟩
    · show chunkLoop slice mc nf (n + 1) i (chunkPos mc nf i) = _
      unfold chunkLoop
      rw [hend, hslice, hrest]
    · simpa using hlen
    · show _ ++ rest.flatten = _
      rw [hflat]
      have hdd : slice.drop (chunkPos mc nf (i + 1)).toNat =
          (slice.drop (chunkPos mc nf i).toNat).drop
            (chunkPos mc nf (i + 1) - chunkPos mc nf i).toNat := by
        rw [List.drop_drop]
        congr 1
        omega
      rw [hdd, List.take_append_drop]
    · intro k hk
      match k with
      | 0 =>
        show ((slice.drop (chunkPos mc nf i).toNat).take
            (chunkPos mc nf (i + 1) - chunkPos mc nf i).toNat).length = _
        rw [List.length_take, List.length_drop]
        have : (chunkPos mc nf (i + 1) - chunkPos mc nf i) = chunkSizeI mc nf i := by omega
        rw [this]
        have : i + 0 = i := by omega
        rw [this]
        omega
      | k + 1 =>
        have hk' : k < rest.length := by
          have : rest.length = n := hlen
          simp only [List.length_cons] at hk
          omega
        have := hsizes k hk'
        show (rest.get ⟨k, hk'⟩).length = _
        rw [this]
        congr 2
        omega

/-- Arithmetic facts about `maxChunkSize`/`numFullChunks` needed by the loop
invariant, for any slice length and `chunks ≥ 1`. -/
theorem maxChunkSize_facts (len chunks : Nat) (hc : 1 ≤ chunks) :
    (len : Int) ≤ maxChunkSize len chunks * (chunks : Int) ∧
    maxChunkSize len chunks * (chunks : Int) ≤ (len : Int) + (chunks : Int) ∧
    0 ≤ maxChunkSize len chunks ∧
    (numFullChunks len chunks < (chunks : Int) → 1 ≤ maxChunkSize len chunks) := by
  have hcpos : (0 : Int) < (chunks : Int) := by exact_mod_cast hc
  rcases Nat.eq_zero_or_pos len with hL | hL
  · subst hL
    rcases Nat.lt_or_ge chunks 2 with hc2 | hc2
    · have hc1 : chunks = 1 := by omega
      subst hc1
      -- maxChunkSize 0 1 = Int.tdiv (-1) 1 + 1 = 0, numFullChunks 0 1 = 1
      refine ⟨by decide, by decide, by decide, ?_⟩
      intro h
      exact absurd h (by decide)
    · -- chunks ≥ 2 : Int.tdiv (-1) chunks = 0, so maxChunkSize = 1
      have hmc : maxChunkSize 0 chunks = 1 := by
        unfold maxChunkSize
        have e0 : ((0 : Nat) : Int) - 1 = -(1 : Int) := by norm_num
        rw [e0, Int.neg_tdiv]
        have e2 : Int.tdiv (1 : Int) (chunks : Int) = (1 : Int) / (chunks : Int) :=
          Int.tdiv_eq_ediv (by norm_num) (by positivity)
        have e3 : (1 : Int) / (chunks : Int) = 0 :=
          Int.ediv_eq_zero_of_lt (by norm_num) (by exact_mod_cast (by omega : 1 < chunks))
        rw [e2, e3]
        norm_num
      refine ⟨?_, ?_, ?_, ?_⟩ <;> rw [hmc] <;> norm_num
  · -- len ≥ 1 : the dividend is the cast of the natural number len - 1
    have hL1 : ((len : Int) - 1) = ((len - 1 : Nat) : Int) := by
      push_cast [hL]
      ring
    have hconv : Int.tdiv ((len : Int) - 1) (chunks : Int) =
        ((len - 1 : Nat) : Int) / (chunks : Int) := by
      rw [hL1]
      exact Int.tdiv_eq_ediv (by positivity) (by positivity)
    set q : Int := ((len - 1 : Nat) : Int) / (chunks : Int) with hq
    have hmc : maxChunkSize len chunks = q + 1 := by
      unfold maxChunkSize
      rw [hconv]
    have hq0 : 0 ≤ q := Int.ediv_nonneg (by positivity) (by positivity)
    have hub : ((len - 1 : Nat) : Int) < (q + 1) * (chunks : Int) :=
      Int.lt_ediv_add_one_mul_self ((len - 1 : Nat) : Int) hcpos
    have hlb : q * (chunks : Int) ≤ ((len - 1 : Nat) : Int) :=
      Int.ediv_mul_le ((len - 1 : Nat) : Int) (by omega)
    have hcast : ((len - 1 : Nat) : Int) = (len : Int) - 1 := hL1.symm
    rw [hcast] at hub hlb
    have hexp : (q + 1) * (chunks : Int) = q * (chunks : Int) + (chunks : Int) := by ring
    refine ⟨?_, ?_, ?_, ?_⟩
    · rw [hmc]; omega
    · rw [hmc]; omega
    · rw [hmc]; omega
    · intro _; rw [hmc]; omega

/-- Full functional specification of `ChunkSlice` for any slice and any
`chunks ≥ 1`: the loop never panics, produces exactly `chunks` chunks whose
in-order concatenation is the input slice, and whose sizes follow
`maxChunkSize`/`numFullChunks`. -/
theorem chunkSlice_spec {α : Type} (slice : List α) (chunks : Nat) (hc : 1 ≤ chunks) :
    ∃ r, ChunkSlice slice chunks = some r ∧
      r.length = chunks ∧
      r.flatten = slice ∧
      ∀ k (hk : k < r.length),
        (r.get ⟨k, hk⟩).length =
          (chunkSizeI (maxChunkSize slice.length chunks)
            (numFullChunks slice.length chunks) k).toNat := by
  obtain ⟨hA, hB, hC, hD⟩ := maxChunkSize_facts slice.length chunks hc
  set mc : Int := maxChunkSize slice.length chunks with hmc
  set nf : Int := numFullChunks slice.length chunks with hnf
  have hnfdef : nf = (chunks : Int) - (mc * (chunks : Int) - (slice.length : Int)) := rfl
  have h1 : 0 ≤ nf := by omega
  have h2 : nf ≤ (chunks : Int) := by omega
  have h3 : (chunks : Int) * mc - ((chunks : Int) - nf) = (slice.length : Int) := by
    have : (chunks : Int) * mc = mc * (chunks : Int) := by ring
    omega
  have h5 : 0 < nf → 0 ≤ mc := fun _ => hC
  obtain ⟨r, hr, hlen, hflat, hsizes⟩ :=
    chunkLoop_spec slice mc nf chunks h1 h2 h3 hD h5 chunks 0 (by omega)
  rw [chunkPos_zero mc nf h1] at hr hflat
  refine ⟨r, hr, hlen, by simpa using hflat, ?_⟩
  intro k hk
  simpa using hsizes k hk

/-- For `N ≥ 1` the Go `int` computation in `ChunkSlice` agrees with the
spec's natural-number formulas. -/
theorem chunkFormulas_cast (N M : Nat) (hM : 1 ≤ M) (hN : 1 ≤ N) :
    maxChunkSize N M = (maxChunkSizeSpec N M : Int) ∧
    numFullChunks N M = (numFullChunksSpec N M : Int) := by
  have h1 : ((N : Int) - 1) = ((N - 1 : Nat) : Int) := by
    have : (1 : Nat) ≤ N := hN
    push_cast [this]
    ring
  have hmc : maxChunkSize N M = (maxChunkSizeSpec N M : Int) := by
    unfold maxChunkSize maxChunkSizeSpec
    rw [h1, ← Int.ofNat_tdiv]
    push_cast
    ring
  refine ⟨hmc, ?_⟩
  -- Nat-level bounds making the truncated subtractions exact
  have hdm := Nat.div_add_mod (N - 1) M
  have hmod := Nat.mod_lt (N - 1) (show 0 < M by omega)
  obtain ⟨P, hP⟩ : ∃ P, M * ((N - 1) / M) = P := ⟨_, rfl⟩
  rw [hP] at hdm
  have hexp : maxChunkSizeSpec N M * M = P + M := by
    unfold maxChunkSizeSpec
    rw [← hP]
    ring
  have hA : N ≤ maxChunkSizeSpec N M * M := by rw [hexp]; omega
  have hB : maxChunkSizeSpec N M * M ≤ N + M := by rw [hexp]; omega
  unfold numFullChunks numFullChunksSpec
  rw [hmc]
  have : ((maxChunkSizeSpec N M * M - N : Nat) : Int) =
      (maxChunkSizeSpec N M : Int) * M - N := by
    push_cast [hA]
    ring
  omega

/-- If the concatenation of a list of lists is a contiguous interval
`range' a n`, then each piece is itself the contiguous interval starting at
`a` plus the total length of the preceding pieces. -/
theorem flatten_range'_pieces :
    ∀ (r : List (List Nat)) (a n : Nat), r.flatten = List.range' a n →
      ∀ k (hk : k < r.length),
        r.get ⟨k, hk⟩ =
          List.range' (a + ((r.map List.length).take k).sum) (r.get ⟨k, hk⟩).length := by
  intro r
  induction r with
  | nil => intro a n _ k hk; exact absurd hk (by simp)
  | cons c rest ih =>
    intro a n happ k hk
    have hlen : c.length + rest.flatten.length = n := by
      have := congrArg List.length happ
      simpa using this
    have hcn : c.length ≤ n := by omega
    have hsplit : List.range' a c.length ++ List.range' (a + c.length) (n - c.length) =
        List.range' a n := by
      have h := List.range'_append a c.length (n - c.length) 1
      rw [show (n - c.length) + c.length = n from by omega] at h
      simpa using h
    have happ2 : c ++ rest.flatten = List.range' a c.length ++
        List.range' (a + c.length) (n - c.length) := by
      rw [hsplit]
      exact happ
    have hinj := List.append_inj happ2 (by simp)
    have hc : c = List.range' a c.length := hinj.1
    have hrest : rest.flatten = List.range' (a + c.length) (n - c.length) := hinj.2
    match k with
    | 0 =>
      show c = _
      simpa using hc
    | k + 1 =>
      have hk' : k < rest.length := by
        simp only [List.length_cons] at hk
        omega
      have := ih (a + c.length) (n - c.length) hrest k hk'
      show rest.get ⟨k, hk'⟩ = _
      rw [this]
      congr 1
      simp [List.sum_cons]
      omega

/-- C1.  For every `totalVBuckets N ≥ 1` and `totalMembers M` with
`1 ≤ M ≤ N`, `ChunkSlice` partitions the sorted vBucket ID list `0..N-1`
into `M` pairwise-disjoint contiguous ranges whose in-order concatenation
(and hence union) is exactly `0..N-1`; members `1..numFullChunks` receive
`maxChunkSize` vBuckets and later members `maxChunkSize - 1`, so any two
shares differ in size by at most 1. -/
theorem chunkSlice_partition (N M : Nat) (hM : 1 ≤ M) (hMN : M ≤ N) :
    ∃ r, ChunkSlice (List.range N) M = some r ∧
      r.length = M ∧
      r.flatten = List.range N ∧
      r.Pairwise List.Disjoint ∧
      (∀ k (hk : k < r.length),
        r.get ⟨k, hk⟩ =
          List.range' (((r.map List.length).take k).sum) (r.get ⟨k, hk⟩).length) ∧
      (∀ k (hk : k < r.length),
        (r.get ⟨k, hk⟩).length =
          if k < numFullChunksSpec N M then maxChunkSizeSpec N M
          else maxChunkSizeSpec N M - 1) ∧
      (∀ k l (hk : k < r.length) (hl : l < r.length),
        (r.get ⟨k, hk⟩).length ≤ (r.get ⟨l, hl⟩).length + 1) := by
  have hN : 1 ≤ N := le_trans hM hMN
  obtain ⟨r, hr, hlen, hflat, hsizes⟩ := chunkSlice_spec (List.range N) M hM
  obtain ⟨hmc, hnf⟩ := chunkFormulas_cast N M hM hN
  have hrange : (List.range N).length = N := List.length_range N
  rw [hrange] at hsizes
  rw [hmc, hnf] at hsizes
  have hsizes' : ∀ k (hk : k < r.length),
      (r.get ⟨k, hk⟩).length =
        if k < numFullChunksSpec N M then maxChunkSizeSpec N M
        else maxChunkSizeSpec N M - 1 := by
    intro k hk
    rw [hsizes k hk]
    unfold chunkSizeI
    by_cases h : k < numFullChunksSpec N M
    · rw [if_pos (by exact_mod_cast h), if_pos h]
      exact Int.toNat_natCast _
    · rw [if_neg (by exact_mod_cast h), if_neg h]
      omega
  refine ⟨r, hr, hlen, hflat, ?_, ?_, hsizes', ?_⟩
  · have hnodup : r.flatten.Nodup := by rw [hflat]; exact List.nodup_range N
    exact (List.nodup_flatten.mp hnodup).2
  · intro k hk
    have h := flatten_range'_pieces r 0 N (by rw [hflat]; exact List.range_eq_range' N) k hk
    simpa using h
  · intro k l hk hl
    have hms : 1 ≤ maxChunkSizeSpec N M := Nat.le_add_left 1 _
    rw [hsizes' k hk, hsizes' l hl]
    by_cases c1 : k < numFullChunksSpec N M
    · rw [if_pos c1]
      by_cases c2 : l < numFullChunksSpec N M
      · rw [if_pos c2]; omega
      · rw [if_neg c2]; omega
    · rw [if_neg c1]
      by_cases c2 : l < numFullChunksSpec N M
      · rw [if_pos c2]; omega
      · rw [if_neg c2]; omega

/-- Witness for C1 at the spec's own boundary example `N = 1024`, `M = 3`:
the shares are contiguous with sizes 342, 341, 341
(`maxChunkSizeSpec 1024 3 = 342`, `numFullChunksSpec 1024 3 = 1`). -/
theorem chunkSlice_partition_witness :
    (1 ≤ 3 ∧ 3 ≤ 1024 ∧ maxChunkSizeSpec 1024 3 = 342 ∧ numFullChunksSpec 1024 3 = 1) ∧
    ∃ r, ChunkSlice (List.range 1024) 3 = some r ∧
      r.length = 3 ∧
      r.flatten = List.range 1024 ∧
      ∀ k (hk : k < r.length),
        (r.get ⟨k, hk⟩).length = if k < 1 then 342 else 341 := by
  refine ⟨⟨by decide, by decide, by decide, by decide⟩, ?_⟩
  obtain ⟨r, hr, hlen, hflat, _, _, hsz, _⟩ := chunkSlice_partition 1024 3 (by decide) (by decide)
  refine ⟨r, hr, hlen, hflat, ?_⟩
  intro k hk
  rw [hsz k hk]
  rw [show numFullChunksSpec 1024 3 = 1 from by decide,
    show maxChunkSizeSpec 1024 3 = 342 from by decide]

/-- C10.  For every slice `s` and chunk count `c ≥ 1` — including `c`
greater than `len(s)` and `s` empty — `ChunkSlice s c` succeeds (no
out-of-range panic) with exactly `c` sub-slices whose in-order concatenation
is `s`; when `c > len(s)`, the first `len(s)` results have one element each
and the remaining results are empty. -/
theorem chunkSlice_general (s : List Nat) (c : Nat) (hc : 1 ≤ c) :
    ∃ r, ChunkSlice s c = some r ∧ r.length = c ∧ r.flatten = s ∧
      (s.length < c →
        (∀ k (hk : k < r.length), k < s.length → (r.get ⟨k, hk⟩).length = 1) ∧
        (∀ k (hk : k < r.length), s.length ≤ k → r.get ⟨k, hk⟩ = [])) := by
  obtain ⟨r, hr, hlen, hflat, hsizes⟩ := chunkSlice_spec s c hc
  refine ⟨r, hr, hlen, hflat, ?_⟩
  intro hlc
  rcases Nat.eq_zero_or_pos s.length with h0 | h1
  · have hs : s = [] := List.length_eq_zero.mp h0
    have hall : ∀ l ∈ r, l = [] := by
      apply List.flatten_eq_nil_iff.mp
      rw [hflat, hs]
    constructor
    · intro k hk hk0
      rw [h0] at hk0
      exact absurd hk0 (by omega)
    · intro k hk _
      exact hall _ (List.get_mem r k hk)
  · obtain ⟨hmc, hnf⟩ := chunkFormulas_cast s.length c hc h1
    have hmcS : maxChunkSizeSpec s.length c = 1 := by
      unfold maxChunkSizeSpec
      rw [Nat.div_eq_of_lt (by omega)]
    have hnfS : numFullChunksSpec s.length c = s.length := by
      unfold numFullChunksSpec
      rw [hmcS]
      omega
    have key : ∀ k (hk : k < r.length),
        (r.get ⟨k, hk⟩).length = if k < s.length then 1 else 0 := by
      intro k hk
      rw [hsizes k hk, hmc, hnf, hmcS, hnfS]
      unfold chunkSizeI
      by_cases h : k < s.length
      · rw [if_pos (by exact_mod_cast h), if_pos h]
        rfl
      · rw [if_neg (by exact_mod_cast h), if_neg h]
        rfl
    constructor
    · intro k hk hkl
      rw [key k hk, if_pos hkl]
    · intro k hk hkl
      have h := key k hk
      rw [if_neg (by omega)] at h
      exact List.length_eq_zero.mp h

/-- Witness for C10 at `s = [0,1,2]`, `c = 5`: the result is
`[[0],[1],[2],[],[]]` — members beyond the vBucket count receive empty
ownership rather than an out-of-range error. -/
theorem chunkSlice_general_witness :
    (1 ≤ 5 ∧ ([0, 1, 2] : List Nat).length < 5) ∧
    ∃ r, ChunkSlice ([0, 1, 2] : List Nat) 5 = some r ∧ r.length = 5 ∧
      r.flatten = [0, 1, 2] ∧
      (∀ k (hk : k < r.length), k < 3 → (r.get ⟨k, hk⟩).length = 1) ∧
      (∀ k (hk : k < r.length), 3 ≤ k → r.get ⟨k, hk⟩ = []) := by
  refine ⟨⟨by decide, by decide⟩, ?_⟩
  obtain ⟨r, hr, hlen, hflat, hrest⟩ := chunkSlice_general [0, 1, 2] 5 (by decide)
  obtain ⟨hone, hempty⟩ := hrest (by decide)
  exact ⟨r, hr, hlen, hflat, fun k hk h => hone k hk h, fun k hk h => hempty k hk h⟩

theorem digitsAux_length_le :
    ∀ k n fuel, 1 ≤ k → n < 16 ^ k → n + 1 ≤ fuel →
      (digitsAux 16 fuel n).length ≤ k := by
  intro k
  induction k with
  | zero => intro n fuel h; omega
  | succ m ih =>
    intro n fuel _ hn hfuel
    match fuel with
    | f + 1 =>
      rw [digitsAux]
      by_cases h : n < 16
      · rw [if_pos h]
        simp
      · rw [if_neg h]
        have hm : 1 ≤ m := by
          rcases Nat.eq_zero_or_pos m with h0 | h1
          · subst h0; simp at hn; omega
          · exact h1
        have hdiv : n / 16 < 16 ^ m := by
          apply Nat.div_lt_of_lt_mul
          rw [pow_succ, mul_comm] at hn
          exact hn
        have hlt : n / 16 < n := Nat.div_lt_self (by omega) (by omega)
        have := ih (n / 16) f hm hdiv (by omega)
        simp only [List.length_append, List.length_cons, List.length_nil]
        omega

theorem hexDigits_length_le (k n : Nat) (hk : 1 ≤ k) (hn : n < 16 ^ k) :
    (hexDigits n).length ≤ k :=
  digitsAux_length_le k n (n + 1) hk hn (le_refl _)

theorem crc32BitStep_lt (crc : Nat) (h : crc < 2 ^ 32) : crc32BitStep crc < 2 ^ 32 := by
  unfold crc32BitStep
  by_cases hb : crc % 2 = 1
  · rw [if_pos hb]
    exact Nat.xor_lt_two_pow (by omega) (by norm_num [crc32Poly])
  · rw [if_neg hb]
    omega

theorem crc32ByteStep_lt (crc b : Nat) (hc : crc < 2 ^ 32) (hb : b < 2 ^ 32) :
    crc32ByteStep crc b < 2 ^ 32 := by
  unfold crc32ByteStep
  have h0 : crc ^^^ b < 2 ^ 32 := Nat.xor_lt_two_pow hc hb
  have : ∀ m x, x < 2 ^ 32 → Nat.iterate crc32BitStep m x < 2 ^ 32 := by
    intro m
    induction m with
    | zero => intro x hx; exact hx
    | succ j ih =>
      intro x hx
      rw [Function.iterate_succ_apply]
      exact ih _ (crc32BitStep_lt x hx)
  exact this 8 _ h0

theorem crc32IEEE_lt (data : List Nat) (hd : ∀ b ∈ data, b < 2 ^ 32) :
    crc32IEEE data < 2 ^ 32 := by
  unfold crc32IEEE
  have hfold : ∀ (l : List Nat) (crc : Nat), (∀ b ∈ l, b < 2 ^ 32) → crc < 2 ^ 32 →
      l.foldl crc32ByteStep crc < 2 ^ 32 := by
    intro l
    induction l with
    | nil => intro crc _ hc; exact hc
    | cons b rest ih =>
      intro crc hl hc
      rw [List.foldl_cons]
      exact ih _ (fun x hx => hl x (List.mem_cons_of_mem b hx))
        (crc32ByteStep_lt crc b hc (hl b (List.mem_cons_self b rest)))
  exact Nat.xor_lt_two_pow (hfold data 0xFFFFFFFF hd (by norm_num)) (by norm_num)

theorem strBytes_lt (s : String) : ∀ b ∈ strBytes s, b < 2 ^ 32 := by
  intro b hb
  unfold strBytes at hb
  obtain ⟨c, _, hc⟩ := List.mem_map.mp hb
  rw [← hc]
  exact UInt32.toNat_lt c.val

/-- C7.  For every vBucket ID and group name, the cluster checkpoint key
`GetCheckpointId` equals the configured prefix, the group name,
`":checkpoint:"`, the vbId in decimal, `'#'`, and the 8-hex-digit
zero-padded CRC-32 (IEEE) checksum of the lowercase hexadecimal string
representation of the vbId — the spec's
`"{prefix}{group}:checkpoint:{vbID}#{crc32(hex(vbID)):08x}"` format. -/
theorem getCheckpointId_spec ( Prefix groupName : String) (vbId : Nat)
    (_hv : vbId < 65536) :
    GetCheckpointId Prefix vbId groupName = specCheckpointKey Prefix groupName vbId ∧
    (String.mk (leftPadZero 8
      (hexDigits (crc32IEEE (strBytes (natToHex vbId)))))).length = 8 := by
  constructor
  · unfold GetCheckpointId specCheckpointKey
    simp [String.append_assoc]
  · have hcrc : crc32IEEE (strBytes (natToHex vbId)) < 2 ^ 32 :=
      crc32IEEE_lt (strBytes (natToHex vbId)) (strBytes_lt _)
    have h16 : crc32IEEE (strBytes (natToHex vbId)) < 16 ^ 8 := by
      have : (16 : Nat) ^ 8 = 2 ^ 32 := by norm_num
      omega
    have hlen := hexDigits_length_le 8 (crc32IEEE (strBytes (natToHex vbId)))
      (by omega) h16
    simp only [String.length, leftPadZero, List.length_append, List.length_replicate]
    omega

/-- Witness for C7 at `Prefix = "_connector:"`, `groupName = "g"`,
`vbId = 11`: the key evaluates to `"_connector:g:checkpoint:11#71beeff9"`
(decimal `11`, `crc32("b") = 0x71beeff9`), with an 8-hex-digit CRC field. -/
theorem getCheckpointId_spec_witness :
    (11 < 65536 ∧
      GetCheckpointId "_connector:" 11 "g" = "_connector:g:checkpoint:11#71beeff9") ∧
    GetCheckpointId "_connector:" 11 "g" = specCheckpointKey "_connector:" "g" 11 ∧
    (String.mk (leftPadZero 8
      (hexDigits (crc32IEEE (strBytes (natToHex 11)))))).length = 8 :=
  ⟨⟨by decide, by decide⟩, getCheckpointId_spec "_connector:" "g" 11 (by decide)⟩

/-- Pointwise characterisation of the auto-reset loop, for a dump with
no duplicate vBucket keys (Go map iteration yields each key once). -/
theorem loadLatestLoop_spec (seqNoMap : Nat → Nat) :
    ∀ (dump : List (Nat × CheckpointDocument)) (offs : Nat → Option Offset)
      (dirty : Nat → Bool) (anyD : Bool),
      (dump.map Prod.fst).Nodup →
      (∀ vbID doc, (vbID, doc) ∈ dump →
        (loadLatestLoop seqNoMap dump offs dirty anyD).1 vbID =
          some { snapshotMarker := { startSeqNo := seqNoMap vbID
                                     endSeqNo := seqNoMap vbID }
                 vbUUID := doc.checkpoint.vbUUID
                 seqNo := seqNoMap vbID }) ∧
      (∀ vbID, vbID ∉ dump.map Prod.fst →
        (loadLatestLoop seqNoMap dump offs dirty anyD).1 vbID = offs vbID) ∧
      (∀ vbID, vbID ∈ dump.map Prod.fst → seqNoMap vbID ≠ 0 →
        (loadLatestLoop seqNoMap dump offs dirty anyD).2.1 vbID = true) ∧
      (∀ vbID, vbID ∈ dump.map Prod.fst → seqNoMap vbID = 0 →
        (loadLatestLoop seqNoMap dump offs dirty anyD).2.1 vbID = dirty vbID) ∧
      (∀ vbID, vbID ∉ dump.map Prod.fst →
        (loadLatestLoop seqNoMap dump offs dirty anyD).2.1 vbID = dirty vbID) ∧
      ((loadLatestLoop seqNoMap dump offs dirty anyD).2.2 =
        (anyD || dump.any fun p => seqNoMap p.1 != 0)) := by
  intro dump
  induction dump with
  | nil =>
    intro offs dirty anyD _
    refine ⟨?_, ?_, ?_, ?_, ?_, ?_⟩
    · intro vbID doc h; exact absurd h (by simp)
    · intro vbID _; rfl
    · intro vbID h; exact absurd h (by simp)
    · intro vbID h; exact absurd h (by simp)
    · intro vbID _; rfl
    · simp [loadLatestLoop]
  | cons hd rest ih =>
    intro offs dirty anyD hnodup
    obtain ⟨v0, d0⟩ := hd
    have hnodup' : (rest.map Prod.fst).Nodup := by
      simp only [List.map_cons, List.nodup_cons] at hnodup
      exact hnodup.2
    have hv0 : v0 ∉ rest.map Prod.fst := by
      simp only [List.map_cons, List.nodup_cons] at hnodup
      exact hnodup.1
    set s0 := seqNoMap v0 with hs0
    set dirty2 := if s0 ≠ 0 then boolMapUpdate dirty v0 true else dirty with hdirty2
    set anyD2 := if s0 ≠ 0 then true else anyD with hanyD2
    set offs2 := mapUpdate offs v0
      { snapshotMarker := { startSeqNo := s0, endSeqNo := s0 }
        vbUUID := d0.checkpoint.vbUUID
        seqNo := s0 } with hoffs2
    have hstep : loadLatestLoop seqNoMap ((v0, d0) :: rest) offs dirty anyD =
        loadLatestLoop seqNoMap rest offs2 dirty2 anyD2 := rfl
    obtain ⟨ih1, ih2, ih3, ih4, ih5, ih6⟩ := ih offs2 dirty2 anyD2 hnodup'
    have hd2 : ∀ vbID, vbID ≠ v0 → dirty2 vbID = dirty vbID := by
      intro vbID hne
      rw [hdirty2]
      by_cases h : s0 ≠ 0
      · rw [if_pos h]
        simp [boolMapUpdate, hne]
      · rw [if_neg h]
    rw [hstep]
    refine ⟨?_, ?_, ?_, ?_, ?_, ?_⟩
    · intro vbID doc hmem
      rcases List.mem_cons.mp hmem with heq | hrest
      · have hv : vbID = v0 := congrArg Prod.fst heq
        have hdc : doc = d0 := congrArg Prod.snd heq
        subst hv
        rw [ih2 vbID hv0, hdc]
        simp [hoffs2, mapUpdate]
      · exact ih1 vbID doc hrest
    · intro vbID hnot
      have hne : vbID ≠ v0 := fun h => hnot (by simp [h])
      have hnr : vbID ∉ rest.map Prod.fst := fun h => hnot (by simp [h])
      rw [ih2 vbID hnr]
      simp [hoffs2, mapUpdate, hne]
    · intro vbID hmem hne0
      rcases (by simpa using hmem : vbID = v0 ∨ vbID ∈ rest.map Prod.fst) with heq | hrest
      · subst heq
        rw [ih5 vbID hv0, hdirty2]
        rw [if_pos (by rw [hs0]; exact hne0)]
        simp [boolMapUpdate]
      · exact ih3 vbID hrest hne0
    · intro vbID hmem h0
      rcases (by simpa using hmem : vbID = v0 ∨ vbID ∈ rest.map Prod.fst) with heq | hrest
      · subst heq
        rw [ih5 vbID hv0, hdirty2]
        rw [if_neg (by rw [hs0]; omega)]
      · have hne : vbID ≠ v0 := fun h => hv0 (h ▸ hrest)
        rw [ih4 vbID hrest h0]
        exact hd2 vbID hne
    · intro vbID hnot
      have hne : vbID ≠ v0 := fun h => hnot (by simp [h])
      have hnr : vbID ∉ rest.map Prod.fst := fun h => hnot (by simp [h])
      rw [ih5 vbID hnr]
      exact hd2 vbID hne
    · rw [ih6, List.any_cons, hanyD2]
      by_cases h : s0 = 0
      · rw [if_neg (by omega)]
        have : (seqNoMap v0 != 0) = false := by
          rw [← hs0, h]
          rfl
        rw [this]
        simp
      · rw [if_pos h]
        have : (seqNoMap v0 != 0) = true := by
          rw [← hs0]
          simpa using h
        rw [this]
        simp

/-- C2.  When `Load` finds no persisted state (`exist = false`) and
`autoReset = latest`, every known vBucket's offset is initialised to the
server's current seqNo (`startSeqNo = endSeqNo = seqNo = currentSeqNo`) with
vbUUID `0` (from the backend's zero-value document); a vBucket is dirty iff
its current seqNo is non-zero, and `anyDirty` holds iff some vBucket's
current seqNo is non-zero. -/
theorem checkpointLoad_autoReset_latest
    (dump : List (Nat × CheckpointDocument)) (bucketUUID : String)
    (seqNoMap : Nat → Nat)
    (hnodup : (dump.map Prod.fst).Nodup)
    (hempty : ∀ p ∈ dump, p.2 = emptyCheckpointDocument bucketUUID) :
    ∃ offsets dirtyOffsets anyDirtyOffset,
      checkpointLoad (.ok (dump, false)) CheckpointAutoResetTypeLatest (.ok seqNoMap) =
        .ok (offsets, dirtyOffsets, anyDirtyOffset) ∧
      (∀ vbID, vbID ∈ dump.map Prod.fst →
        offsets vbID =
          some { snapshotMarker := { startSeqNo := seqNoMap vbID
                                     endSeqNo := seqNoMap vbID }
                 vbUUID := 0
                 seqNo := seqNoMap vbID }) ∧
      (∀ vbID, dirtyOffsets vbID = true ↔
        (vbID ∈ dump.map Prod.fst ∧ 0 < seqNoMap vbID)) ∧
      (anyDirtyOffset = true ↔ ∃ vbID ∈ dump.map Prod.fst, 0 < seqNoMap vbID) := by
  obtain ⟨h1, h2, h3, h4, h5, h6⟩ :=
    loadLatestLoop_spec seqNoMap dump (fun _ => none) (fun _ => false) false hnodup
  refine ⟨_, _, _, rfl, ?_, ?_, ?_⟩
  · intro vbID hmem
    obtain ⟨p, hp, hfst⟩ := List.mem_map.mp hmem
    obtain ⟨v, doc⟩ := p
    have hv : v = vbID := hfst
    subst hv
    have := h1 v doc hp
    rw [this]
    have hdoc : doc = emptyCheckpointDocument bucketUUID := hempty (v, doc) hp
    rw [hdoc]
    rfl
  · intro vbID
    constructor
    · intro hdirty
      by_cases hmem : vbID ∈ dump.map Prod.fst
      · refine ⟨hmem, ?_⟩
        by_cases h0 : seqNoMap vbID = 0
        · rw [h4 vbID hmem h0] at hdirty
          exact absurd hdirty (by simp)
        · omega
      · rw [h5 vbID hmem] at hdirty
        exact absurd hdirty (by simp)
    · intro ⟨hmem, hpos⟩
      exact h3 vbID hmem (by omega)
  · rw [h6]
    simp only [Bool.false_or, List.any_eq_true]
    constructor
    · intro ⟨p, hp, hne⟩
      refine ⟨p.1, List.mem_map.mpr ⟨p, hp, rfl⟩, ?_⟩
      have : ¬seqNoMap p.1 = 0 := by simpa using hne
      omega
    · intro ⟨vbID, hmem, hpos⟩
      obtain ⟨p, hp, hfst⟩ := List.mem_map.mp hmem
      refine ⟨p, hp, ?_⟩
      rw [hfst]
      simpa using (by omega : seqNoMap vbID ≠ 0)

/-- Witness for C2 at the spec's end-to-end scenario: 4 vBuckets with
server seqNos `{0:5, 1:0, 2:12, 3:3}` and an empty metadata state yield
ledger seqNos `{0:5, 1:0, 2:12, 3:3}`, dirty set `{0,2,3}`, `anyDirty`. -/
theorem checkpointLoad_autoReset_latest_witness :
    ∃ offsets dirtyOffsets anyDirtyOffset,
      checkpointLoad
        (.ok ([(0, emptyCheckpointDocument "bu"), (1, emptyCheckpointDocument "bu"),
               (2, emptyCheckpointDocument "bu"), (3, emptyCheckpointDocument "bu")], false))
        CheckpointAutoResetTypeLatest
        (.ok fun v => if v = 0 then 5 else if v = 2 then 12 else if v = 3 then 3 else 0) =
        .ok (offsets, dirtyOffsets, anyDirtyOffset) ∧
      (∀ vbID,
        vbID ∈ ([(0, emptyCheckpointDocument "bu"), (1, emptyCheckpointDocument "bu"),
                 (2, emptyCheckpointDocument "bu"),
                 (3, emptyCheckpointDocument "bu")].map Prod.fst) →
        offsets vbID =
          some { snapshotMarker :=
                   { startSeqNo := if vbID = 0 then 5 else if vbID = 2 then 12
                       else if vbID = 3 then 3 else 0
                     endSeqNo := if vbID = 0 then 5 else if vbID = 2 then 12
                       else if vbID = 3 then 3 else 0 }
                 vbUUID := 0
                 seqNo := if vbID = 0 then 5 else if vbID = 2 then 12
                   else if vbID = 3 then 3 else 0 }) ∧
      (∀ vbID, dirtyOffsets vbID = true ↔
        (vbID ∈ ([(0, emptyCheckpointDocument "bu"), (1, emptyCheckpointDocument "bu"),
                  (2, emptyCheckpointDocument "bu"),
                  (3, emptyCheckpointDocument "bu")].map Prod.fst) ∧
          0 < if vbID = 0 then 5 else if vbID = 2 then 12 else if vbID = 3 then 3 else 0)) ∧
      (anyDirtyOffset = true ↔
        ∃ vbID ∈ ([(0, emptyCheckpointDocument "bu"), (1, emptyCheckpointDocument "bu"),
                   (2, emptyCheckpointDocument "bu"),
                   (3, emptyCheckpointDocument "bu")].map Prod.fst),
          0 < if vbID = 0 then 5 else if vbID = 2 then 12 else if vbID = 3 then 3 else 0) :=
  checkpointLoad_autoReset_latest _ "bu" _ (by decide) (by decide)

/-- C4 counterexample.  The claim's "of two consecutive Save() calls with no
intervening offset mutation, the second performs zero metadata writes" is
false as stated: starting from a dirty ledger whose first `Save` hits a
backend error, the dirty flags survive (C5) and the second `Save` performs
one metadata write, not zero. -/
theorem checkpointSave_consecutive_counterexample :
    ((checkpointSave (checkpointSave saveSt0 "bucket" failSave).1 "bucket" okSave).2).length
      = 1 ∧
    (checkpointSave (checkpointSave saveSt0 "bucket" failSave).1 "bucket" okSave).2 ≠ [] := by
  constructor
  · rfl
  · apply List.ne_nil_of_length_pos
    rw [show ((checkpointSave (checkpointSave saveSt0 "bucket" failSave).1 "bucket"
      okSave).2).length = 1 from rfl]
    omega

/-- C4 (amended).  If no offset is dirty, `Save` returns before building any
checkpoint document: the ledger is unchanged and zero metadata-backend
writes are performed.  Of two consecutive `Save` calls with no intervening
offset mutation, the second performs zero metadata writes provided the
first left the ledger clean — in particular whenever the first call's
backend write succeeded (or nothing was dirty to begin with). -/
theorem checkpointSave_noop (st : LedgerState) (bucketUUID : String)
    (m m' : List (Nat × CheckpointDocument) → (Nat → Bool) → String → Option String) :
    (st.anyDirtyOffset = false → checkpointSave st bucketUUID m = (st, [])) ∧
    ((checkpointSave st bucketUUID m).1.anyDirtyOffset = false →
      (checkpointSave (checkpointSave st bucketUUID m).1 bucketUUID m').2 = []) ∧
    (m (buildDump st.offsets bucketUUID) st.dirtyOffsets bucketUUID = none →
      (checkpointSave (checkpointSave st bucketUUID m).1 bucketUUID m').2 = []) := by
  have hearly : ∀ (s : LedgerState), s.anyDirtyOffset = false →
      checkpointSave s bucketUUID m' = (s, []) := by
    intro s h
    unfold checkpointSave
    rw [h]
    rfl
  have hearly0 : st.anyDirtyOffset = false → checkpointSave st bucketUUID m = (st, []) := by
    intro h
    unfold checkpointSave
    rw [h]
    rfl
  refine ⟨hearly0, ?_, ?_⟩
  · intro h
    rw [hearly _ h]
  · intro hok
    by_cases hd : st.anyDirtyOffset = false
    · have h1 := hearly0 hd
      rw [h1]
      rw [hearly st hd]
    · have hd' : st.anyDirtyOffset = true := by
        revert hd
        cases st.anyDirtyOffset <;> simp
      have h1 : checkpointSave st bucketUUID m =
          (UnmarkDirtyOffsets st, [buildDump st.offsets bucketUUID]) := by
        unfold checkpointSave
        rw [hd']
        show (match m (buildDump st.offsets bucketUUID) st.dirtyOffsets bucketUUID with
          | none => (UnmarkDirtyOffsets st, [buildDump st.offsets bucketUUID])
          | some _ => (st, [buildDump st.offsets bucketUUID])) = _
        rw [hok]
      rw [h1]
      exact congrArg Prod.snd (hearly (UnmarkDirtyOffsets st) rfl)

/-- Witness for C4 (amended) at a concrete clean-first-save instance:
after a successful `Save` of `saveSt0`, the following `Save` performs zero
metadata writes. -/
theorem checkpointSave_noop_witness :
    (checkpointSave (checkpointSave saveSt0 "bucket" okSave).1 "bucket" okSave).2 = [] :=
  (checkpointSave_noop saveSt0 "bucket" okSave okSave).2.2 rfl

/-- C5.  If the metadata backend's `Save` errors, `checkpoint.Save` does not
call `UnmarkDirtyOffsets`: the ledger (offsets and every dirty flag) is
exactly as before, so every previously dirty offset is still dirty, the
next scheduled `Save` performs the backend write again, and a dirty flag can
only be cleared by a call whose backend write succeeds. -/
theorem checkpointSave_error_keeps_dirty :
    (∀ (st : LedgerState) (bucketUUID : String) m e,
      m (buildDump st.offsets bucketUUID) st.dirtyOffsets bucketUUID = some e →
      (checkpointSave st bucketUUID m).1 = st) ∧
    (∀ (st : LedgerState) (bucketUUID : String) m e m',
      st.anyDirtyOffset = true →
      m (buildDump st.offsets bucketUUID) st.dirtyOffsets bucketUUID = some e →
      (checkpointSave (checkpointSave st bucketUUID m).1 bucketUUID m').2 =
        [buildDump st.offsets bucketUUID]) ∧
    (∀ (st : LedgerState) (bucketUUID : String) m vbID,
      st.dirtyOffsets vbID = true →
      (checkpointSave st bucketUUID m).1.dirtyOffsets vbID = false →
      m (buildDump st.offsets bucketUUID) st.dirtyOffsets bucketUUID = none) := by
  have herr : ∀ (st : LedgerState) (bucketUUID : String) m e,
      m (buildDump st.offsets bucketUUID) st.dirtyOffsets bucketUUID = some e →
      checkpointSave st bucketUUID m =
        if st.anyDirtyOffset then (st, [buildDump st.offsets bucketUUID]) else (st, []) := by
    intro st bucketUUID m e hm
    unfold checkpointSave
    cases hd : st.anyDirtyOffset
    · rfl
    · show (match m (buildDump st.offsets bucketUUID) st.dirtyOffsets bucketUUID with
        | none => (UnmarkDirtyOffsets st, [buildDump st.offsets bucketUUID])
        | some _ => (st, [buildDump st.offsets bucketUUID])) = _
      rw [hm]
      rfl
  refine ⟨?_, ?_, ?_⟩
  · intro st bucketUUID m e hm
    rw [herr st bucketUUID m e hm]
    cases st.anyDirtyOffset <;> rfl
  · intro st bucketUUID m e m' hd hm
    have h1 : (checkpointSave st bucketUUID m).1 = st := by
      rw [herr st bucketUUID m e hm]
      cases st.anyDirtyOffset <;> rfl
    rw [h1]
    unfold checkpointSave
    rw [hd]
    show (match m' (buildDump st.offsets bucketUUID) st.dirtyOffsets bucketUUID with
      | none => (UnmarkDirtyOffsets st, [buildDump st.offsets bucketUUID])
      | some _ => (st, [buildDump st.offsets bucketUUID])).2 = _
    cases m' (buildDump st.offsets bucketUUID) st.dirtyOffsets bucketUUID <;> rfl
  · intro st bucketUUID m vbID hdirty hafter
    cases hm : m (buildDump st.offsets bucketUUID) st.dirtyOffsets bucketUUID with
    | none => rfl
    | some e =>
      have h1 : (checkpointSave st bucketUUID m).1 = st := by
        rw [herr st bucketUUID m e hm]
        cases st.anyDirtyOffset <;> rfl
      rw [h1] at hafter
      rw [hdirty] at hafter
      exact absurd hafter (by simp)

/-- Witness for C5 at `saveSt0` with an always-failing backend: the ledger
is unchanged after the failed save, and the next save retries the write. -/
theorem checkpointSave_error_keeps_dirty_witness :
    (checkpointSave saveSt0 "bucket" failSave).1 = saveSt0 ∧
    (checkpointSave (checkpointSave saveSt0 "bucket" failSave).1 "bucket" failSave).2 =
      [buildDump saveSt0.offsets "bucket"] :=
  ⟨checkpointSave_error_keeps_dirty.1 saveSt0 "bucket" failSave "metadata io error" rfl,
   checkpointSave_error_keeps_dirty.2.1 saveSt0 "bucket" failSave "metadata io error"
     failSave rfl rfl⟩

/-- C3.  When the initial open completes with a DCP rollback error carrying
server seqNo `R`, `OpenStream` re-issues the open with `vbUUID = 0`,
stream start `R`, end bound `0xffffffffffffffff` and snapshot `R..R`; the
re-open's completion callback updates the observer's failover-log cache via
`SetFailoverLogs`, and `OpenStream` returns the re-open's result — in
particular success whenever the re-open succeeds. -/
theorem openStream_rollback (agent : StreamRequest → DcpResponse) (vbID : Nat)
    (collectionIDs : Option (List Nat)) (hasCollectionsSupport : Bool)
    (offset : Offset) (observer : ObserverState) (rollbackSeqNo : Nat)
    (logs1 : List FailoverEntry)
    (hroll : agent (initialStreamRequest vbID offset
        (openStreamOptions collectionIDs hasCollectionsSupport)) =
      .completed logs1 (some (.rollback rollbackSeqNo))) :
    OpenStream agent vbID collectionIDs hasCollectionsSupport offset observer =
      openStreamWithRollback agent vbID offset.seqNo rollbackSeqNo
        (SetFailoverLogs observer vbID logs1)
        (openStreamOptions collectionIDs hasCollectionsSupport) ∧
    rollbackRequest vbID rollbackSeqNo
        (openStreamOptions collectionIDs hasCollectionsSupport) =
      { vbID := vbID
        vbUUID := 0
        startSeqNo := rollbackSeqNo
        endSeqNo := 0xffffffffffffffff
        snapStartSeqNo := rollbackSeqNo
        snapEndSeqNo := rollbackSeqNo
        filter := openStreamOptions collectionIDs hasCollectionsSupport } ∧
    (∀ logs2,
      agent (rollbackRequest vbID rollbackSeqNo
          (openStreamOptions collectionIDs hasCollectionsSupport)) =
        .completed logs2 none →
      OpenStream agent vbID collectionIDs hasCollectionsSupport offset observer =
        (SetFailoverLogs (SetFailoverLogs observer vbID logs1) vbID logs2, .ok)) ∧
    (∀ logs2 e2,
      agent (rollbackRequest vbID rollbackSeqNo
          (openStreamOptions collectionIDs hasCollectionsSupport)) =
        .completed logs2 (some e2) →
      OpenStream agent vbID collectionIDs hasCollectionsSupport offset observer =
        (SetFailoverLogs (SetFailoverLogs observer vbID logs1) vbID logs2,
          .streamErr e2)) := by
  have h1 : OpenStream agent vbID collectionIDs hasCollectionsSupport offset observer =
      openStreamWithRollback agent vbID offset.seqNo rollbackSeqNo
        (SetFailoverLogs observer vbID logs1)
        (openStreamOptions collectionIDs hasCollectionsSupport) := by
    simp only [OpenStream]
    rw [hroll]
  refine ⟨h1, rfl, ?_, ?_⟩
  · intro logs2 hok
    rw [h1]
    unfold openStreamWithRollback
    rw [hok]
  · intro logs2 e2 herr
    rw [h1]
    unfold openStreamWithRollback
    rw [herr]

/-- Witness for C3 at the spec's scenario (`Rollback(seqNo=42)` for
`vB = 7`): the re-open succeeds, both completion callbacks updated the
failover-log cache, and the caller observes success. -/
theorem openStream_rollback_witness :
    OpenStream rollbackAgent 7 none false offset7 obs0 =
      (SetFailoverLogs (SetFailoverLogs obs0 7 [{ vbUUID := 0xAA, seqNo := 10 }]) 7
        [{ vbUUID := 0, seqNo := 42 }], .ok) :=
  (openStream_rollback rollbackAgent 7 none false offset7 obs0 42
    [{ vbUUID := 0xAA, seqNo := 10 }] rfl).2.2.1 [{ vbUUID := 0, seqNo := 42 }] rfl

/-- C6.  With a stored offset `O` and no rollback, `OpenStream` requests
the DCP stream with exactly `O`'s values: `vbUUID = O.vbUUID`, stream start
`O.seqNo`, end bound `0xffffffffffffffff`, snapshot
`O.startSeqNo..O.endSeqNo`; when the agent completes that request without
error the call succeeds after caching the delivered failover logs. -/
theorem openStream_resume (agent : StreamRequest → DcpResponse) (vbID : Nat)
    (collectionIDs : Option (List Nat)) (hasCollectionsSupport : Bool)
    (offset : Offset) (observer : ObserverState) :
    initialStreamRequest vbID offset
        (openStreamOptions collectionIDs hasCollectionsSupport) =
      { vbID := vbID
        vbUUID := offset.vbUUID
        startSeqNo := offset.seqNo
        endSeqNo := 0xffffffffffffffff
        snapStartSeqNo := offset.snapshotMarker.startSeqNo
        snapEndSeqNo := offset.snapshotMarker.endSeqNo
        filter := openStreamOptions collectionIDs hasCollectionsSupport } ∧
    (∀ logs,
      agent (initialStreamRequest vbID offset
          (openStreamOptions collectionIDs hasCollectionsSupport)) =
        .completed logs none →
      OpenStream agent vbID collectionIDs hasCollectionsSupport offset observer =
        (SetFailoverLogs observer vbID logs, .ok)) := by
  refine ⟨rfl, ?_⟩
  intro logs hok
  simp only [OpenStream]
  rw [hok]

/-- Witness for C6 at the spec's resume scenario: loading the saved
document for vB 0 yields exactly `resumeOffset`, and the stream is then
requested with exactly those values. -/
theorem openStream_resume_witness :
    (∃ offsets dirtyOffsets anyDirtyOffset,
      checkpointLoad (.ok ([(0, resumeDoc)], true)) CheckpointAutoResetTypeLatest
          (.ok fun _ => 0) =
        .ok (offsets, dirtyOffsets, anyDirtyOffset) ∧
      offsets 0 = some resumeOffset) ∧
    initialStreamRequest 0 resumeOffset (openStreamOptions none false) =
      { vbID := 0
        vbUUID := 0xAA
        startSeqNo := 100
        endSeqNo := 0xffffffffffffffff
        snapStartSeqNo := 100
        snapEndSeqNo := 200
        filter := none } ∧
    OpenStream resumeAgent 0 none false resumeOffset obs0 =
      (SetFailoverLogs obs0 0 [{ vbUUID := 0xAA, seqNo := 100 }], .ok) :=
  ⟨⟨_, _, _, rfl, rfl⟩,
   (openStream_resume resumeAgent 0 none false resumeOffset obs0).1,
   (openStream_resume resumeAgent 0 none false resumeOffset obs0).2
     [{ vbUUID := 0xAA, seqNo := 100 }] rfl⟩

/-- C8.  Whenever the root-CA file read succeeds, `tlsRootCaProvider`
builds a new certificate pool and appends the PEM contents to it, but
returns `nil` rather than the built pool; through `getSecurityConfig` a
secure connection therefore gets a provider that yields a `nil` root-CA
pool. -/
theorem tlsRootCaProvider_returns_nil (cfg : ClientConfig) (cert : List Nat)
    (hsec : cfg.secureConnection = true) :
    tlsRootCaProvider (.ok cert) = .ok none ∧
    AppendCertsFromPEM NewCertPool cert = ⟨[cert]⟩ ∧
    tlsRootCaProvider (.ok cert) ≠ .ok (some (AppendCertsFromPEM NewCertPool cert)) ∧
    (getSecurityConfig cfg).useTLS = true ∧
    (getSecurityConfig cfg).tlsRootCAProvider = some tlsRootCaProvider := by
  refine ⟨rfl, rfl, by simp [tlsRootCaProvider], ?_, ?_⟩
  · simp [getSecurityConfig, hsec]
  · simp [getSecurityConfig, hsec]

/-- Witness for C8 at a concrete secure configuration and PEM blob. -/
theorem tlsRootCaProvider_returns_nil_witness :
    tlsRootCaProvider (.ok [1, 2, 3]) = .ok none ∧
    AppendCertsFromPEM NewCertPool [1, 2, 3] = ⟨[[1, 2, 3]]⟩ ∧
    tlsRootCaProvider (.ok [1, 2, 3]) ≠
      .ok (some (AppendCertsFromPEM NewCertPool [1, 2, 3])) ∧
    (getSecurityConfig secureCfg).useTLS = true ∧
    (getSecurityConfig secureCfg).tlsRootCAProvider = some tlsRootCaProvider :=
  tlsRootCaProvider_returns_nil secureCfg [1, 2, 3] rfl

/-- C9.  `DeleteDocument` never reports failure: whatever errors the
dispatch or the completion callback of the underlying delete produce, the
caller gets no error value and cannot distinguish success from failure. -/
theorem deleteDocument_never_fails :
    (∀ waitErr callbackErr, DeleteDocument waitErr callbackErr = none) ∧
    (∀ w c w' c', DeleteDocument w c = DeleteDocument w' c') := by
  constructor
  · intro w c
    cases w <;> cases c <;> rfl
  · intro w c w' c'
    cases w <;> cases c <;> cases w' <;> cases c' <;> rfl
